import Mathlib

/-!
Shallow embedding of the AIBoard provider-orchestration layer:
the error classifier and recovery planner (src/lib/ai-chess/error-handler.ts),
the move validator (same file), the fallback manager
(src/lib/ai-chess/fallback-manager.ts), the Gemini provider request queue
(cleanup and clearQueue), the provider registry and base-provider model CRUD
(provider-registry.ts / base-provider.ts), and the getAIMove facade
(src/lib/hooks/useAIChessProviders.ts).

JS Maps are embedded as association lists read through List.lookup with the
same defaulting as the source (undefined coerces to 0 or false).  Time is an
explicit Nat parameter (milliseconds, as Date.now()).  setTimeout callbacks
are kept as pending (providerId, deadline) entries that fire when the model
time reaches the deadline.  Promise-returning provider calls are embedded as
an oracle giving each call attempt a success or a thrown error message.
-/

namespace AIBoard

/-- Helper for strContains: does pat occur as a contiguous run of chars in
the list (checking the prefix at each suffix)? -/
def listContainsRun (pat : List Char) : List Char → Bool
  | [] => pat.isEmpty
  | c :: rest => pat.isPrefixOf (c :: rest) || listContainsRun pat rest

/-- JS String.prototype.includes: the pattern occurs as a contiguous
substring. -/
def strContains (s pat : String) : Bool :=
  listContainsRun pat.data s.data

/-- JS String.prototype.toLowerCase, characterwise (the classifier patterns
and its messages are ASCII, where the two agree). -/
def strToLower (s : String) : String :=
  String.mk (s.data.map Char.toLower)

/-- Whitespace as trimmed by JS String.prototype.trim (the ASCII cases). -/
def isWhitespaceChar (c : Char) : Bool :=
  c == ' ' || c == '\t' || c == '\n' || c == '\r'

/-- JS String.prototype.trim: drop whitespace from both ends. -/
def strTrim (s : String) : String :=
  String.mk (((s.data.dropWhile isWhitespaceChar).reverse.dropWhile
    isWhitespaceChar).reverse)

/-! ## Error classifier (error-handler.ts, AIChessErrorHandler) -/

/-- The closed error taxonomy of error-handler.ts (enum AIChessErrorType). -/
inductive AIChessErrorType where
  | RATE_LIMIT
  | API_KEY_INVALID
  | API_KEY_MISSING
  | NETWORK_ERROR
  | INVALID_MOVE
  | PROVIDER_UNAVAILABLE
  | TIMEOUT
  | QUOTA_EXCEEDED
  | UNKNOWN
deriving DecidableEq, Repr

/-- The classified error value produced per failure (class AIChessError);
retryDelay is in milliseconds. -/
structure AIChessError where
  type : AIChessErrorType
  message : String
  providerId : String
  retryable : Bool
  retryDelay : Nat
deriving DecidableEq, Repr

/-- AIChessErrorHandler.classifyError: ordered case-insensitive substring
matching over the failure message, first match wins.  The source lowercases
the message once and then tests the branches in this exact order. -/
def classifyError (errorMessage providerId : String) : AIChessError :=
  let errorString := strToLower errorMessage
  if strContains errorString "rate limit" || strContains errorString "429" ||
      strContains errorString "too many requests" then
    ⟨.RATE_LIMIT, "Rate limit exceeded. Please wait before making more requests.",
      providerId, true, 10000⟩
  else if strContains errorString "api key" &&
      (strContains errorString "invalid" || strContains errorString "unauthorized") then
    ⟨.API_KEY_INVALID, "Invalid API key. Please check your API key configuration.",
      providerId, false, 0⟩
  else if strContains errorString "api key not set" ||
      (strContains errorString "api key" && strContains errorString "missing") then
    ⟨.API_KEY_MISSING, "API key not set. Please configure your API key.",
      providerId, false, 0⟩
  else if strContains errorString "network" || strContains errorString "fetch" ||
      strContains errorString "connection" then
    ⟨.NETWORK_ERROR, "Network error. Please check your internet connection.",
      providerId, true, 5000⟩
  else if strContains errorString "timeout" || strContains errorString "timed out" then
    ⟨.TIMEOUT, "Request timed out. The AI provider is taking too long to respond.",
      providerId, true, 3000⟩
  else if strContains errorString "quota" || strContains errorString "limit exceeded" then
    ⟨.QUOTA_EXCEEDED, "API quota exceeded. Please try again later or upgrade your plan.",
      providerId, true, 60000⟩
  else if strContains errorString "invalid move" || strContains errorString "illegal move" then
    ⟨.INVALID_MOVE, "AI generated an invalid move. Retrying with different parameters.",
      providerId, true, 1000⟩
  else if strContains errorString "provider" &&
      (strContains errorString "unavailable" || strContains errorString "not found") then
    ⟨.PROVIDER_UNAVAILABLE, "AI provider is currently unavailable. Trying fallback provider.",
      providerId, false, 0⟩
  else
    ⟨.UNKNOWN, "Unexpected error: " ++ errorMessage, providerId, true, 5000⟩

/-- Disjunction of all eight classifier branch conditions, in source order;
a message matching none of them falls through to UNKNOWN. -/
def matchesAnyPattern (errorMessage : String) : Bool :=
  let s := strToLower errorMessage
  (strContains s "rate limit" || strContains s "429" || strContains s "too many requests") ||
  (strContains s "api key" && (strContains s "invalid" || strContains s "unauthorized")) ||
  (strContains s "api key not set" || (strContains s "api key" && strContains s "missing")) ||
  (strContains s "network" || strContains s "fetch" || strContains s "connection") ||
  (strContains s "timeout" || strContains s "timed out") ||
  (strContains s "quota" || strContains s "limit exceeded") ||
  (strContains s "invalid move" || strContains s "illegal move") ||
  (strContains s "provider" && (strContains s "unavailable" || strContains s "not found"))

/-- The recovery decision returned by AIChessErrorHandler.handleError. -/
structure RecoveryDecision where
  shouldRetry : Bool
  retryDelay : Nat
  shouldFallback : Bool
  userMessage : String
deriving DecidableEq, Repr

/-- The recovery-strategy switch of AIChessErrorHandler.handleError on the
classified error (inlined in the source): shouldRetry is initialized to the
classified retryable flag and overridden to false in the key, quota and
provider-unavailable cases; shouldFallback starts false and is set true in
every case except INVALID_MOVE. -/
def recoveryFor (c : AIChessError) (providerId : String) : RecoveryDecision :=
  match c.type with
  | .RATE_LIMIT =>
      ⟨c.retryable, c.retryDelay, true,
        "Rate limit reached for " ++ providerId ++ ". Waiting " ++
          toString (c.retryDelay / 1000) ++ " seconds..."⟩
  | .API_KEY_INVALID =>
      ⟨false, c.retryDelay, true,
        "API key issue with " ++ providerId ++ ". Please check your configuration."⟩
  | .API_KEY_MISSING =>
      ⟨false, c.retryDelay, true,
        "API key issue with " ++ providerId ++ ". Please check your configuration."⟩
  | .NETWORK_ERROR =>
      ⟨c.retryable, c.retryDelay, true,
        "Network error with " ++ providerId ++ ". Retrying in " ++
          toString (c.retryDelay / 1000) ++ " seconds..."⟩
  | .PROVIDER_UNAVAILABLE =>
      ⟨false, c.retryDelay, true,
        providerId ++ " is unavailable. Switching to backup provider."⟩
  | .QUOTA_EXCEEDED =>
      ⟨false, c.retryDelay, true,
        "API quota exceeded for " ++ providerId ++ ". Switching to backup provider."⟩
  | .INVALID_MOVE =>
      ⟨c.retryable, c.retryDelay, false,
        "AI generated invalid move. Retrying with adjusted parameters..."⟩
  | .TIMEOUT =>
      ⟨c.retryable, c.retryDelay, true,
        providerId ++ " timed out. Retrying with backup provider..."⟩
  | .UNKNOWN =>
      ⟨c.retryable, c.retryDelay, true,
        "Unexpected error with " ++ providerId ++ ". Trying backup provider..."⟩

/-- AIChessErrorHandler.handleError: classify the failure, then derive the
recovery decision by the switch on the classified type. -/
def handleError (errorMessage providerId : String) : RecoveryDecision :=
  recoveryFor (classifyError errorMessage providerId) providerId

/-! ## Move validator (error-handler.ts, MoveValidator)

The chess.js dependency is external to the repository; it is embedded as an
abstract engine whose move function plays the role of loading the FEN into a
fresh Chess instance and calling game.move: none is a null/thrown result,
some r a successful move with its from/to squares and promotion suffix
(result.promotion coerced through the JS `|| empty-string` to a string). -/

/-- Result of a successful chess.js game.move call, as used by the source:
the from square, the to square, and the promotion suffix (empty when the JS
promotion field is undefined). -/
structure ChessMoveResult where
  fromSq : String
  toSq : String
  promotion : String
deriving DecidableEq, Repr

/-- Abstract chess.js boundary: move fen m is game.move(m) on a fresh Chess
instance loaded with fen; none covers both a null return and a thrown
exception (including a FEN that fails to load). -/
structure ChessEngine where
  move : String → String → Option ChessMoveResult

/-- Character class [a-h] of the UCI regex. -/
def isFileChar (c : Char) : Bool := 'a' ≤ c && c ≤ 'h'

/-- Character class [1-8] of the UCI regex. -/
def isRankChar (c : Char) : Bool := '1' ≤ c && c ≤ '8'

/-- Character class [qrbnQRBN] of the UCI regex. -/
def isPromoChar (c : Char) : Bool :=
  c == 'q' || c == 'r' || c == 'b' || c == 'n' ||
  c == 'Q' || c == 'R' || c == 'B' || c == 'N'

/-- Character class [KQRBN] of the algebraic regex. -/
def isPieceChar (c : Char) : Bool :=
  c == 'K' || c == 'Q' || c == 'R' || c == 'B' || c == 'N'

/-- MoveValidator.isValidUCIFormat: full-string match of
[a-h][1-8][a-h][1-8][qrbnQRBN]? . -/
def isValidUCIFormat (move : String) : Bool :=
  match move.data with
  | [a, b, c, d] => isFileChar a && isRankChar b && isFileChar c && isRankChar d
  | [a, b, c, d, e] =>
      isFileChar a && isRankChar b && isFileChar c && isRankChar d && isPromoChar e
  | _ => false

/-- MoveValidator.isLegalMove: load the FEN and try the move; true exactly
when chess.js returns a non-null result (exceptions give false). -/
def isLegalMove (eng : ChessEngine) (fen move : String) : Bool :=
  (eng.move fen move).isSome

/-- Global scan of the UCI regex [a-h][1-8][a-h][1-8][qrbnQRBN]? over the
text: leftmost non-overlapping matches, greedy on the optional promotion
character, resuming after each match (JS String.match with the g flag). -/
def scanUCIMoves : List Char → List String
  | a :: b :: c :: d :: rest =>
    if isFileChar a && isRankChar b && isFileChar c && isRankChar d then
      match rest with
      | e :: rest2 =>
        if isPromoChar e then
          String.mk [a, b, c, d, e] :: scanUCIMoves rest2
        else
          String.mk [a, b, c, d] :: scanUCIMoves (e :: rest2)
      | [] => [String.mk [a, b, c, d]]
    else
      scanUCIMoves (b :: c :: d :: rest)
  | _ => []
termination_by l => l.length

/-- Tail of the algebraic regex after the mandatory [a-h][1-8]: the greedy
optional groups (?:=[QRBN])? and [+#]? , returning the consumed length. -/
def algSuffixLen (l : List Char) : Nat :=
  match l with
  | '=' :: p :: rest =>
    if isPieceChar p then
      2 + (match rest with
           | c :: _ => if c == '+' || c == '#' then 1 else 0
           | [] => 0)
    else
      match l with
      | c :: _ => if c == '+' || c == '#' then 1 else 0
      | [] => 0
  | c :: _ => if c == '+' || c == '#' then 1 else 0
  | [] => 0

/-- Mandatory core [a-h][1-8] of the algebraic regex followed by its greedy
optional suffix; none when the core does not match here. -/
def algCore (l : List Char) : Option Nat :=
  match l with
  | a :: b :: rest =>
    if isFileChar a && isRankChar b then some (2 + algSuffixLen rest) else none
  | _ => none

/-- Optional x? of the algebraic regex with regex backtracking: try the
greedy branch first, fall back to the empty branch. -/
def algFromCapture (l : List Char) : Option Nat :=
  match l with
  | c :: rest =>
    if c == 'x' then
      match algCore rest with
      | some n => some (1 + n)
      | none => algCore l
    else algCore l
  | [] => algCore l

/-- Optional [1-8]? of the algebraic regex with backtracking. -/
def algFromRank (l : List Char) : Option Nat :=
  match l with
  | c :: rest =>
    if isRankChar c then
      match algFromCapture rest with
      | some n => some (1 + n)
      | none => algFromCapture l
    else algFromCapture l
  | [] => algFromCapture l

/-- Optional [a-h]? of the algebraic regex with backtracking. -/
def algFromFile (l : List Char) : Option Nat :=
  match l with
  | c :: rest =>
    if isFileChar c then
      match algFromRank rest with
      | some n => some (1 + n)
      | none => algFromRank l
    else algFromRank l
  | [] => algFromRank l

/-- Match of the whole algebraic regex
[KQRBN]?[a-h]?[1-8]?x?[a-h][1-8](?:=[QRBN])?[+#]? at this position,
returning the length of the (backtracking, leftmost-greedy) match. -/
def algMatchAt (l : List Char) : Option Nat :=
  match l with
  | c :: rest =>
    if isPieceChar c then
      match algFromFile rest with
      | some n => some (1 + n)
      | none => algFromFile l
    else algFromFile l
  | [] => algFromFile l

theorem algCore_pos {l : List Char} {n : Nat} (h : algCore l = some n) : 0 < n := by
  unfold algCore at h
  cases l with
  | nil => simp at h
  | cons a t =>
    cases t with
    | nil => simp at h
    | cons b r =>
      by_cases hc : (isFileChar a && isRankChar b) = true
      · simp [hc] at h; omega
      · simp [hc] at h

theorem algFromCapture_pos {l : List Char} {n : Nat} (h : algFromCapture l = some n) :
    0 < n := by
  cases l with
  | nil => simp only [algFromCapture] at h; exact algCore_pos h
  | cons c rest =>
    simp only [algFromCapture] at h
    by_cases hx : (c == 'x') = true
    · rw [if_pos hx] at h
      cases hc : algCore rest with
      | some m => rw [hc] at h; simp at h; omega
      | none => rw [hc] at h; exact algCore_pos h
    · rw [if_neg hx] at h; exact algCore_pos h

theorem algFromRank_pos {l : List Char} {n : Nat} (h : algFromRank l = some n) :
    0 < n := by
  cases l with
  | nil => simp only [algFromRank] at h; exact algFromCapture_pos h
  | cons c rest =>
    simp only [algFromRank] at h
    by_cases hr : isRankChar c = true
    · rw [if_pos hr] at h
      cases hc : algFromCapture rest with
      | some m => rw [hc] at h; simp at h; omega
      | none => rw [hc] at h; exact algFromCapture_pos h
    · rw [if_neg hr] at h; exact algFromCapture_pos h

theorem algFromFile_pos {l : List Char} {n : Nat} (h : algFromFile l = some n) :
    0 < n := by
  cases l with
  | nil => simp only [algFromFile] at h; exact algFromRank_pos h
  | cons c rest =>
    simp only [algFromFile] at h
    by_cases hr : isFileChar c = true
    · rw [if_pos hr] at h
      cases hc : algFromRank rest with
      | some m => rw [hc] at h; simp at h; omega
      | none => rw [hc] at h; exact algFromRank_pos h
    · rw [if_neg hr] at h; exact algFromRank_pos h

theorem algMatchAt_pos {l : List Char} {n : Nat} (h : algMatchAt l = some n) :
    0 < n := by
  cases l with
  | nil => simp only [algMatchAt] at h; exact algFromFile_pos h
  | cons c rest =>
    simp only [algMatchAt] at h
    by_cases hr : isPieceChar c = true
    · rw [if_pos hr] at h
      cases hc : algFromFile rest with
      | some m => rw [hc] at h; simp at h; omega
      | none => rw [hc] at h; exact algFromFile_pos h
    · rw [if_neg hr] at h; exact algFromFile_pos h

/-- Global scan of the algebraic regex over the text (JS String.match with
the g flag): leftmost non-overlapping matches, resuming after each match. -/
def scanAlgMoves : List Char → List String
  | [] => []
  | c :: rest =>
    match h : algMatchAt (c :: rest) with
    | some n => String.mk ((c :: rest).take n) :: scanAlgMoves ((c :: rest).drop n)
    | none => scanAlgMoves rest
termination_by l => l.length
decreasing_by
  · simp only [List.length_drop]
    have := algMatchAt_pos h
    simp only [List.length_cons]
    omega
  · simp only [List.length_cons]; omega

/-- MoveValidator.extractMovesFromText: UCI-format matches followed by
algebraic-notation matches of length at least 2 (the JS filter; every match
of the algebraic regex already has length at least 2). -/
def extractMovesFromText (text : String) : List String :=
  scanUCIMoves text.data ++ (scanAlgMoves text.data).filter (fun m => 2 ≤ m.length)

/-- MoveValidator.findBestValidMove: (a) exact UCI match of the trimmed
text, (b) first extracted candidate that is UCI-formatted and legal, (c)
first extracted candidate accepted by chess.js game.move, rendered back to
UCI as from ++ to ++ promotion; null otherwise. -/
def findBestValidMove (eng : ChessEngine) (fen responseText : String) : Option String :=
  let cleanText := strTrim responseText
  if isValidUCIFormat cleanText && isLegalMove eng fen cleanText then
    some cleanText
  else
    let potentialMoves := extractMovesFromText responseText
    match potentialMoves.find? (fun m => isValidUCIFormat m && isLegalMove eng fen m) with
    | some m => some m
    | none =>
      potentialMoves.findSome? (fun m =>
        match eng.move fen m with
        | some r => some (r.fromSq ++ r.toSq ++ r.promotion)
        | none => none)

/-! ## Fallback manager (fallback-manager.ts, FallbackManager)

The three private JS Maps are association lists read with the same
undefined-defaulting as the source; setTimeout re-enable callbacks are kept
as pending (providerId, deadline) pairs that fire once the model time
reaches the deadline. -/

/-- FallbackManager.MAX_FAILURES. -/
def MAX_FAILURES : Nat := 3

/-- FallbackManager.FAILURE_WINDOW_MS (5 minutes). -/
def FAILURE_WINDOW_MS : Nat := 300000

/-- FallbackManager.DISABLE_DURATION_MS (10 minutes). -/
def DISABLE_DURATION_MS : Nat := 600000

/-- The FallbackManager instance state: failureCount, lastFailureTime and
isProviderDisabled Maps plus the re-enable timeouts scheduled by
recordFailure and not yet fired. -/
structure FMState where
  failureCount : List (String × Nat)
  lastFailureTime : List (String × Nat)
  isProviderDisabled : List (String × Bool)
  pendingReenable : List (String × Nat)
deriving DecidableEq, Repr

/-- Map.get with the JS `|| 0` defaulting used by the source. -/
def mapGetNat (m : List (String × Nat)) (k : String) : Nat :=
  match m.lookup k with
  | some v => v
  | none => 0

/-- Map.get on the disabled map: undefined is falsy. -/
def mapGetBool (m : List (String × Bool)) (k : String) : Bool :=
  match m.lookup k with
  | some v => v
  | none => false

/-- Map.set: the new binding shadows any previous binding for the key. -/
def mapSet {α : Type} (m : List (String × α)) (k : String) (v : α) :
    List (String × α) :=
  (k, v) :: m

/-- The state of a fresh FallbackManager (empty Maps, no timers). -/
def initFM : FMState := ⟨[], [], [], []⟩

/-- FallbackManager.recordFailure at model time now: reset the count to 1
when more than FAILURE_WINDOW_MS has passed since the last failure,
otherwise increment it; stamp the failure time; at MAX_FAILURES disable the
provider and schedule the setTimeout that re-enables it
DISABLE_DURATION_MS later. -/
def recordFailure (s : FMState) (providerId : String) (now : Nat) : FMState :=
  let currentFailures := mapGetNat s.failureCount providerId
  let lastFailure := mapGetNat s.lastFailureTime providerId
  let fc :=
    if now - lastFailure > FAILURE_WINDOW_MS then
      mapSet s.failureCount providerId 1
    else
      mapSet s.failureCount providerId (currentFailures + 1)
  let s1 : FMState :=
    { s with failureCount := fc,
             lastFailureTime := mapSet s.lastFailureTime providerId now }
  let failures := mapGetNat s1.failureCount providerId
  if failures ≥ MAX_FAILURES then
    { s1 with
        isProviderDisabled := mapSet s1.isProviderDisabled providerId true,
        pendingReenable := s1.pendingReenable ++ [(providerId, now + DISABLE_DURATION_MS)] }
  else
    s1

/-- FallbackManager.recordSuccess: reset the failure count and clear the
disabled flag (pending re-enable timeouts are not cancelled). -/
def recordSuccess (s : FMState) (providerId : String) : FMState :=
  { s with
      failureCount := mapSet s.failureCount providerId 0,
      isProviderDisabled := mapSet s.isProviderDisabled providerId false }

/-- FallbackManager.isProviderAvailable: not currently disabled. -/
def isProviderAvailable (s : FMState) (providerId : String) : Bool :=
  ! mapGetBool s.isProviderDisabled providerId

/-- Fire every scheduled re-enable timeout whose deadline has been reached
at model time t (each callback clears the disabled flag and zeroes the
failure count); later timeouts stay pending. -/
def fireDue (t : Nat) (s : FMState) : FMState :=
  let due := s.pendingReenable.filter (fun p => p.2 ≤ t)
  let rest := s.pendingReenable.filter (fun p => ¬ (p.2 ≤ t))
  let fired := due.foldl
    (fun acc p =>
      { acc with
          isProviderDisabled := mapSet acc.isProviderDisabled p.1 false,
          failureCount := mapSet acc.failureCount p.1 0 })
    s
  { fired with pendingReenable := rest }

/-- An externally driven FallbackManager call: recordFailure or
recordSuccess at a given model time. -/
inductive FMEvent where
  | fail (t : Nat) (providerId : String)
  | success (t : Nat) (providerId : String)
deriving DecidableEq, Repr

/-- The model time of an event. -/
def eventTime : FMEvent → Nat
  | .fail t _ => t
  | .success t _ => t

/-- Process one event: timeouts due by the event time fire first, then the
call runs. -/
def stepEvent (s : FMState) (e : FMEvent) : FMState :=
  let s1 := fireDue (eventTime e) s
  match e with
  | .fail t pid => recordFailure s1 pid t
  | .success _ pid => recordSuccess s1 pid

/-- Run a time-sorted list of events from a state. -/
def runEvents (s : FMState) (es : List FMEvent) : FMState :=
  es.foldl stepEvent s

/-- The manager state observed at model time t for a time-sorted event
history: events up to t have run and timeouts due by t have fired. -/
def stateAt (es : List FMEvent) (t : Nat) : FMState :=
  fireDue t (runEvents initFM (es.filter (fun e => eventTime e ≤ t)))

/-- isProviderAvailable observed at model time t for an event history. -/
def availableAt (es : List FMEvent) (providerId : String) (t : Nat) : Bool :=
  isProviderAvailable (stateAt es t) providerId

/-! ## Provider selection and executeWithFallback

The registry (provider-registry.ts) is embedded as the list of registered
provider ids in registration order; getProvider succeeds exactly on
membership, getAllProviders returns the list.  Provider getBestMove calls
are embedded as an oracle from the call index (0 = first attempt, 1 =
fallback attempt) to none (resolved) or some message (rejected). -/

/-- FallbackManager.mapToStockfishLevel: map a Gemini model id to a
Stockfish level by substring tests, in source order. -/
def mapToStockfishLevel (modelId : String) : String :=
  if strContains modelId "2.5-pro" || strContains modelId "advanced" then
    "stockfish-level-20"
  else if strContains modelId "1.5-pro" || strContains modelId "pro" then
    "stockfish-level-10"
  else if strContains modelId "flash" || strContains modelId "fast" then
    "stockfish-level-5"
  else
    "stockfish-level-10"

/-- FallbackManager.getBestAvailableProvider: the preferred provider when
not disabled and registered (isFallback false); else the stockfish provider
when registered and not disabled; else the first registered provider other
than the preferred one that is not disabled; else none (the source returns
provider null, providerId null). -/
def getBestAvailableProvider (s : FMState) (registry : List String)
    (preferredProviderId : String) : Option (String × Bool) :=
  if isProviderAvailable s preferredProviderId && registry.contains preferredProviderId then
    some (preferredProviderId, false)
  else if registry.contains "stockfish" && isProviderAvailable s "stockfish" then
    some ("stockfish", true)
  else
    match registry.find? (fun p => p != preferredProviderId && isProviderAvailable s p) with
    | some p => some (p, true)
    | none => none

/-- Observable outcome of one executeWithFallback call: the getBestMove
attempts in order (providerId, modelId actually passed), the manager state
after the call, and the promise outcome (ok, or the propagated error
message). -/
structure ExecResult where
  attempts : List (String × String)
  state : FMState
  outcome : Except String Unit
deriving Repr

/-- The error message of a rejected outcome, none for ok. -/
def outcomeError : Except String Unit → Option String
  | .error e => some e
  | .ok _ => none

/-- FallbackManager.executeWithFallback: select a provider; throw when none
is available; try getBestMove (adjusting the model id when the selection is
the stockfish fallback); on success recordSuccess; on a throw recordFailure
and, unless the selection was already a fallback, re-select with the failed
id as preferred and make exactly one more getBestMove attempt (whose own
throw propagates uncaught); with no re-selection the original error
propagates.  beh gives each attempt its outcome; now is Date.now() for the
call. -/
def executeWithFallback (s : FMState) (registry : List String)
    (beh : Nat → Option String) (now : Nat)
    (preferredProviderId modelId : String) : ExecResult :=
  match getBestAvailableProvider s registry preferredProviderId with
  | none => ⟨[], s, .error "No available providers for AI move generation"⟩
  | some (providerId, isFallback) =>
    let adjustedModelId :=
      if isFallback && providerId == "stockfish" then mapToStockfishLevel modelId
      else modelId
    match beh 0 with
    | none => ⟨[(providerId, adjustedModelId)], recordSuccess s providerId, .ok ()⟩
    | some err =>
      let s1 := recordFailure s providerId now
      if isFallback then
        ⟨[(providerId, adjustedModelId)], s1, .error err⟩
      else
        match getBestAvailableProvider s1 registry providerId with
        | some (fbProviderId, _) =>
          let fallbackModelId :=
            if fbProviderId == "stockfish" then mapToStockfishLevel modelId else modelId
          match beh 1 with
          | none =>
            ⟨[(providerId, adjustedModelId), (fbProviderId, fallbackModelId)],
              recordSuccess s1 fbProviderId, .ok ()⟩
          | some err2 =>
            ⟨[(providerId, adjustedModelId), (fbProviderId, fallbackModelId)],
              s1, .error err2⟩
        | none => ⟨[(providerId, adjustedModelId)], s1, .error err⟩

/-! ## Gemini provider request queue (gemini-provider.ts): cleanup and
clearQueue.  Queued requests are identified by their request ids; a
rejection delivered to a pending caller is recorded explicitly, so an
emptied queue whose callers got no rejection is observable. -/

/-- The queue-related fields of a GeminiProvider instance. -/
structure GeminiQueueState where
  requestQueue : List String
  isProcessingQueue : Bool
  activeRequests : List String
  requestResetTimeout : Bool
deriving DecidableEq, Repr

/-- A rejection delivered to the caller of a queued request. -/
structure Rejection where
  requestId : String
  message : String
deriving DecidableEq, Repr

/-- GeminiProvider.cleanup: clear the reset interval, clear activeRequests,
drop the queue and stop the processor; the pending requests are discarded
without being rejected. -/
def cleanup (s : GeminiQueueState) : GeminiQueueState × List Rejection :=
  (⟨[], false, [], false⟩, [])

/-- GeminiProvider.clearQueue: reject every queued request with a Queue
cleared error, then empty the queue and stop the processor. -/
def clearQueue (s : GeminiQueueState) : GeminiQueueState × List Rejection :=
  ({ s with requestQueue := [], isProcessingQueue := false },
    s.requestQueue.map (fun rid => ⟨rid, "Queue cleared"⟩))

/-! ## Base provider model CRUD (base-provider.ts, BaseAIChessProvider)

The TS optional fields are Options (none is an absent property); the object
spreads in the source merge a full AIChessModel over the stored entry, so
the merge takes the incoming field when present and keeps the stored one
otherwise. -/

/-- AIChessModel (types/ai-chess-provider.d.ts): id and name required, the
rest optional. -/
structure AIChessModel where
  id : String
  name : String
  description : Option String := none
  strength : Option String := none
  custom : Option Bool := none
  enabled : Option Bool := none
deriving DecidableEq, Repr

/-- Partial AIChessModel, the updates argument of updateModel: every field
optional, including id. -/
structure ModelPatch where
  id : Option String := none
  name : Option String := none
  description : Option String := none
  strength : Option String := none
  custom : Option Bool := none
  enabled : Option Bool := none
deriving DecidableEq, Repr

/-- JS object-spread override: the incoming property when present, else the
stored one. -/
def mergeOpt {α : Type} (incoming stored : Option α) : Option α :=
  match incoming with
  | some v => some v
  | none => stored

/-- The entry stored by addModel when the id already exists:
spread of the existing entry, then the incoming model, then custom true and
the enabled normalization (enabled unless explicitly false). -/
def mergeAdd (existing incoming : AIChessModel) : AIChessModel :=
  { id := incoming.id
    name := incoming.name
    description := mergeOpt incoming.description existing.description
    strength := mergeOpt incoming.strength existing.strength
    custom := some true
    enabled := some (incoming.enabled != some false) }

/-- The entry pushed by addModel for a new id. -/
def newCustomModel (incoming : AIChessModel) : AIChessModel :=
  { incoming with
      custom := some true
      enabled := some (incoming.enabled != some false) }

/-- BaseAIChessProvider.addModel: update the first entry with the same id
in place, else push the new custom model at the end (findIndex followed by
assignment or push). -/
def addModel : List AIChessModel → AIChessModel → List AIChessModel
  | [], incoming => [newCustomModel incoming]
  | existing :: rest, incoming =>
    if existing.id == incoming.id then
      mergeAdd existing incoming :: rest
    else
      existing :: addModel rest incoming

/-- The entry stored by updateModel: spread of the existing entry then the
updates (an absent update field keeps the stored one; an update id or name
replaces it). -/
def applyPatch (existing : AIChessModel) (updates : ModelPatch) : AIChessModel :=
  { id := (updates.id).getD existing.id
    name := (updates.name).getD existing.name
    description := mergeOpt updates.description existing.description
    strength := mergeOpt updates.strength existing.strength
    custom := mergeOpt updates.custom existing.custom
    enabled := mergeOpt updates.enabled existing.enabled }

/-- BaseAIChessProvider.updateModel: patch the first entry with the given
id in place; a miss only warns. -/
def updateModel : List AIChessModel → String → ModelPatch → List AIChessModel
  | [], _, _ => []
  | existing :: rest, targetId, updates =>
    if existing.id == targetId then
      applyPatch existing updates :: rest
    else
      existing :: updateModel rest targetId updates

/-- BaseAIChessProvider.deleteModel: splice out the first entry with the
given id, but only when its custom flag is truthy; otherwise only warn. -/
def deleteModel : List AIChessModel → String → List AIChessModel
  | [], _ => []
  | existing :: rest, targetId =>
    if existing.id == targetId then
      if existing.custom == some true then rest else existing :: rest
    else
      existing :: deleteModel rest targetId

/-- A model CRUD operation on one provider. -/
inductive ModelOp where
  | add (m : AIChessModel)
  | update (targetId : String) (updates : ModelPatch)
  | delete (targetId : String)
deriving Repr

/-- Apply one CRUD operation. -/
def applyOp (models : List AIChessModel) : ModelOp → List AIChessModel
  | .add m => addModel models m
  | .update targetId updates => updateModel models targetId updates
  | .delete targetId => deleteModel models targetId

/-- Apply a sequence of CRUD operations. -/
def applyOps (models : List AIChessModel) (ops : List ModelOp) : List AIChessModel :=
  ops.foldl applyOp models

/-- The id list of a model list. -/
def modelIds (models : List AIChessModel) : List String :=
  models.map (fun m => m.id)

/-- An update operation that does not move the patched entry to a new id:
its id field is absent or restates the target id. -/
def opKeepsId : ModelOp → Prop
  | .update targetId updates => updates.id = none ∨ updates.id = some targetId
  | _ => True

/-! ## getAIMove facade (useAIChessProviders.ts)

The module-level activeRequests Map keyed by the
providerId-modelId-fen-Date.now() string; promises are identified by
numbers.  The embedded step is the synchronous prefix of getAIMove: the
duplicate check, and on a miss the executeWithFallback call plus the store
of its promise. -/

/-- The request id string of getAIMove: providerId-modelId-fen-now
(now being the Date.now() millisecond at the call). -/
def requestKey (providerId modelId fen : String) (now : Nat) : String :=
  providerId ++ "-" ++ modelId ++ "-" ++ fen ++ "-" ++ toString now

/-- Observable outcome of the synchronous prefix of one getAIMove call:
the promise the caller awaits, whether a new executeWithFallback request
was issued, and the map afterwards. -/
structure GetAIMoveStep where
  promise : Nat
  issuedRequest : Bool
  active : List (String × Nat)
deriving DecidableEq, Repr

/-- getAIMove up to its await: reuse the stored in-flight promise when the
request id is already active, otherwise issue the executeWithFallback
request (promise freshPromise) and store it. -/
def getAIMoveStep (active : List (String × Nat)) (providerId modelId fen : String)
    (now : Nat) (freshPromise : Nat) : GetAIMoveStep :=
  let requestId := requestKey providerId modelId fen now
  match active.lookup requestId with
  | some p => ⟨p, false, active⟩
  | none => ⟨freshPromise, true, (requestId, freshPromise) :: active⟩

/-! ## Concrete configurations used by counterexamples and witnesses -/

/-- Event history with a first disabling episode (failures at 0, 1, 2), a
success at 3, and a second disabling episode (failures at 4, 5, 6); the
timer scheduled at the first episode is still pending when the second
episode begins. -/
def exC2Events : List FMEvent :=
  [.fail 0 "p", .fail 1 "p", .fail 2 "p", .success 3 "p",
   .fail 4 "p", .fail 5 "p", .fail 6 "p"]

/-- Three failures in close succession from a fresh manager. -/
def exSimpleFailures : List FMEvent := [.fail 10 "p", .fail 20 "p", .fail 30 "p"]

/-- Attempt oracle where the first attempt throws errA and the second
throws errB. -/
def exBehBothFail : Nat → Option String :=
  fun n => if n = 0 then some "errA" else some "errB"

/-- Attempt oracle where the first attempt throws errA and the second
resolves. -/
def exBehFirstFails : Nat → Option String :=
  fun n => if n = 0 then some "errA" else none

/-- Attempt oracle where every attempt resolves. -/
def exBehSuccess : Nat → Option String := fun _ => none

/-- Manager state with two recent failures recorded for gemini (t = 1000). -/
def exTwoGeminiFailures : FMState := ⟨[("gemini", 2)], [("gemini", 1000)], [], []⟩

/-- Toy chess.js instantiation: the position F has the single legal move
e2e4; any move it accepts renders back to the UCI string e2e4, which it
accepts again. -/
def toyEngine : ChessEngine :=
  ⟨fun fen m => if fen == "F" && m == "e2e4" then some ⟨"e2", "e4", ""⟩ else none⟩

/-- Two models with distinct ids. -/
def exModels : List AIChessModel := [{ id := "a", name := "A" }, { id := "b", name := "B" }]

/-- An update that moves model a onto the id of model b. -/
def exIdClashOp : ModelOp := .update "a" { id := some "b" }

/-- A CRUD sequence that never moves an id: add a new custom model, rename
model a in place, delete the custom model. -/
def exGoodOps : List ModelOp :=
  [.add { id := "c", name := "C" }, .update "a" { name := some "A2" }, .delete "c"]

/-- A queue state with one pending request. -/
def exQueueOnePending : GeminiQueueState := ⟨["req1"], true, [], true⟩

/-!
# Theorems

One theorem per claim of the specification (with counterexamples and
witnesses where called for), preceded by the helper lemmas they share.
-/

/-- Helper: a findSome? hit comes from some list element. -/
theorem findSome?_exists {α β : Type} {f : α → Option β} :
    ∀ {l : List α} {b : β}, l.findSome? f = some b → ∃ a, f a = some b := by
  intro l
  induction l with
  | nil => intro b h; simp [List.findSome?] at h
  | cons x xs ih =>
    intro b h
    rw [List.findSome?_cons] at h
    cases hx : f x with
    | some v => simp only [hx] at h; exact ⟨x, by rw [hx, h]⟩
    | none => simp only [hx] at h; exact ih h

/-- C4: classifyError is ordered, case-insensitive substring matching with
first match winning: any message whose lowercasing contains the rate-limit
pattern classifies as RATE_LIMIT with retryable true — in particular
"rate limit exceeded", even though it also contains the later quota pattern
"limit exceeded" — and any message matching none of the listed patterns
classifies as UNKNOWN with retryable true. -/
theorem classifyError_ordered_first_match_wins :
    (∀ msg pid, strContains (strToLower msg) "rate limit" = true →
       (classifyError msg pid).type = .RATE_LIMIT ∧
       (classifyError msg pid).retryable = true) ∧
    strContains (strToLower "rate limit exceeded") "limit exceeded" = true ∧
    (classifyError "rate limit exceeded" "primary").type = .RATE_LIMIT ∧
    (classifyError "rate limit exceeded" "primary").retryable = true ∧
    (∀ msg pid, matchesAnyPattern msg = false →
       (classifyError msg pid).type = .UNKNOWN ∧
       (classifyError msg pid).retryable = true) := by
  refine ⟨?_, by decide, by decide, by decide, ?_⟩
  · intro msg pid h
    simp [classifyError, h]
  · intro msg pid h
    simp_all [classifyError, matchesAnyPattern]
    split_ifs <;> simp_all

/-- C4 witness: the general conjuncts applied at "rate limit exceeded" and
at a message matching no pattern. -/
theorem classifyError_ordered_first_match_wins_witness :
    strContains (strToLower "rate limit exceeded") "rate limit" = true ∧
    (classifyError "rate limit exceeded" "primary").type = .RATE_LIMIT ∧
    matchesAnyPattern "something odd happened" = false ∧
    (classifyError "something odd happened" "p").type = .UNKNOWN ∧
    (classifyError "something odd happened" "p").retryable = true :=
  ⟨by decide,
   (classifyError_ordered_first_match_wins.1 "rate limit exceeded" "primary" (by decide)).1,
   by decide,
   (classifyError_ordered_first_match_wins.2.2.2.2 "something odd happened" "p" (by decide)).1,
   (classifyError_ordered_first_match_wins.2.2.2.2 "something odd happened" "p" (by decide)).2⟩

/-- Helper: classifyError only ever produces these type/retryable pairs. -/
theorem classifyError_cases (msg pid : String) :
    ((classifyError msg pid).type, (classifyError msg pid).retryable) ∈
      [(AIChessErrorType.RATE_LIMIT, true), (.API_KEY_INVALID, false),
       (.API_KEY_MISSING, false), (.NETWORK_ERROR, true), (.TIMEOUT, true),
       (.QUOTA_EXCEEDED, true), (.INVALID_MOVE, true),
       (.PROVIDER_UNAVAILABLE, false), (.UNKNOWN, true)] := by
  simp only [classifyError]
  split_ifs <;> simp

/-- C5: for every failure message, the recovery decision of handleError has
shouldFallback true for the kinds RATE_LIMIT, API_KEY_INVALID,
API_KEY_MISSING, QUOTA_EXCEEDED, PROVIDER_UNAVAILABLE, TIMEOUT and UNKNOWN,
shouldRetry false for the two key kinds, and for INVALID_MOVE
shouldFallback false with shouldRetry true. -/
theorem handleError_recovery_table :
    ∀ msg pid,
      ((classifyError msg pid).type = .RATE_LIMIT ∨
       (classifyError msg pid).type = .API_KEY_INVALID ∨
       (classifyError msg pid).type = .API_KEY_MISSING ∨
       (classifyError msg pid).type = .QUOTA_EXCEEDED ∨
       (classifyError msg pid).type = .PROVIDER_UNAVAILABLE ∨
       (classifyError msg pid).type = .TIMEOUT ∨
       (classifyError msg pid).type = .UNKNOWN →
        (handleError msg pid).shouldFallback = true) ∧
      ((classifyError msg pid).type = .API_KEY_INVALID ∨
       (classifyError msg pid).type = .API_KEY_MISSING →
        (handleError msg pid).shouldRetry = false) ∧
      ((classifyError msg pid).type = .INVALID_MOVE →
        (handleError msg pid).shouldFallback = false ∧
        (handleError msg pid).shouldRetry = true) := by
  intro msg pid
  have hc := classifyError_cases msg pid
  simp only [List.mem_cons, List.not_mem_nil, or_false, Prod.mk.injEq] at hc
  have hh : handleError msg pid = recoveryFor (classifyError msg pid) pid := rfl
  rcases hc with ⟨h1, h2⟩ | ⟨h1, h2⟩ | ⟨h1, h2⟩ | ⟨h1, h2⟩ | ⟨h1, h2⟩ |
    ⟨h1, h2⟩ | ⟨h1, h2⟩ | ⟨h1, h2⟩ | ⟨h1, h2⟩ <;>
    simp [hh, recoveryFor, h1, h2]

/-- C5 witness: the table applied to a rate-limit failure, an invalid API
key failure and an invalid-move failure. -/
theorem handleError_recovery_table_witness :
    (classifyError "rate limit exceeded" "g").type = .RATE_LIMIT ∧
    (handleError "rate limit exceeded" "g").shouldFallback = true ∧
    (classifyError "api key invalid" "g").type = .API_KEY_INVALID ∧
    (handleError "api key invalid" "g").shouldRetry = false ∧
    (classifyError "invalid move: e9e9" "g").type = .INVALID_MOVE ∧
    (handleError "invalid move: e9e9" "g").shouldFallback = false ∧
    (handleError "invalid move: e9e9" "g").shouldRetry = true :=
  ⟨by decide,
   (handleError_recovery_table "rate limit exceeded" "g").1 (by decide),
   by decide,
   (handleError_recovery_table "api key invalid" "g").2.1 (by decide),
   by decide,
   ((handleError_recovery_table "invalid move: e9e9" "g").2.2 (by decide)).1,
   ((handleError_recovery_table "invalid move: e9e9" "g").2.2 (by decide)).2⟩

/-- C6 counterexample: with one request pending, cleanup empties the queue
but delivers no rejection at all, so the pending caller is left unresolved
— refuting the claim that cleanup rejects every pending request with a
cleared error. -/
theorem cleanup_leaves_pending_caller_unresolved :
    exQueueOnePending.requestQueue = ["req1"] ∧
    (cleanup exQueueOnePending).1.requestQueue = [] ∧
    (cleanup exQueueOnePending).2 = [] := by
  decide

/-- C6 amended: clearQueue (not cleanup) rejects every pending request with
a Queue cleared error and empties the queue, while cleanup empties the
queue without rejecting anything. -/
theorem clearQueue_rejects_every_pending_request (s : GeminiQueueState) :
    (clearQueue s).1.requestQueue = [] ∧
    (clearQueue s).1.isProcessingQueue = false ∧
    (clearQueue s).2 = s.requestQueue.map (fun rid => ⟨rid, "Queue cleared"⟩) ∧
    (cleanup s).1.requestQueue = [] ∧
    (cleanup s).2 = [] :=
  ⟨rfl, rfl, rfl, rfl, rfl⟩

/-- C7: a getAIMove call whose request id (provider, model, position and
Date.now() millisecond bucket) is already in flight returns the stored
promise and issues no executeWithFallback request; in particular a call
that issues a request followed by an identical call in the same bucket
makes the second call reuse the first promise. -/
theorem getAIMove_deduplicates_identical_requests
    (active : List (String × Nat)) (pid mid fen : String) (now p fresh fresh2 : Nat) :
    (active.lookup (requestKey pid mid fen now) = some p →
      getAIMoveStep active pid mid fen now fresh = ⟨p, false, active⟩) ∧
    (active.lookup (requestKey pid mid fen now) = none →
      getAIMoveStep active pid mid fen now fresh =
        ⟨fresh, true, (requestKey pid mid fen now, fresh) :: active⟩ ∧
      getAIMoveStep ((requestKey pid mid fen now, fresh) :: active) pid mid fen now fresh2 =
        ⟨fresh, false, (requestKey pid mid fen now, fresh) :: active⟩) := by
  constructor
  · intro h
    simp [getAIMoveStep, h]
  · intro h
    constructor
    · simp [getAIMoveStep, h]
    · simp [getAIMoveStep, List.lookup]

/-- C7 witness: a concrete in-flight request is reused by the identical
concurrent call. -/
theorem getAIMove_deduplicates_identical_requests_witness :
    List.lookup (requestKey "gemini" "m" "fen1" 42) [(requestKey "gemini" "m" "fen1" 42, 7)]
      = some 7 ∧
    getAIMoveStep [(requestKey "gemini" "m" "fen1" 42, 7)] "gemini" "m" "fen1" 42 9 =
      ⟨7, false, [(requestKey "gemini" "m" "fen1" 42, 7)]⟩ :=
  ⟨by decide,
   (getAIMove_deduplicates_identical_requests
      [(requestKey "gemini" "m" "fen1" 42, 7)] "gemini" "m" "fen1" 42 7 9 0).1 (by decide)⟩

/-- Helper: the toy engine accepts the UCI rendering of any move it
accepts. -/
theorem toyEngine_closed :
    ∀ fen m r, toyEngine.move fen m = some r →
      (toyEngine.move fen (r.fromSq ++ r.toSq ++ r.promotion)).isSome = true := by
  intro fen m r h
  simp only [toyEngine] at h ⊢
  by_cases hc : (fen == "F" && m == "e2e4") = true
  · rw [if_pos hc] at h
    have hr : r = ⟨"e2", "e4", ""⟩ := by
      cases h; rfl
    subst hr
    rw [Bool.and_eq_true] at hc
    have hf : (fen == "F") = true := hc.1
    simp [hf]
  · rw [if_neg hc] at h
    cases h

/-- C8: whenever findBestValidMove returns a move, isLegalMove accepts that
move in the same position — assuming (of the external chess.js engine) that
it accepts the UCI rendering from ++ to ++ promotion of any move result it
produced, which is how the source rebuilds a move in its algebraic
conversion branch. -/
theorem findBestValidMove_returns_legal_move (eng : ChessEngine)
    (hengine : ∀ fen m r, eng.move fen m = some r →
       (eng.move fen (r.fromSq ++ r.toSq ++ r.promotion)).isSome = true)
    (fen text mv : String) (h : findBestValidMove eng fen text = some mv) :
    isLegalMove eng fen mv = true := by
  unfold findBestValidMove at h
  by_cases h1 : (isValidUCIFormat (strTrim text) && isLegalMove eng fen (strTrim text)) = true
  · rw [if_pos h1] at h
    cases h
    rw [Bool.and_eq_true] at h1
    exact h1.2
  · rw [if_neg h1] at h
    simp only [] at h
    cases hf : (extractMovesFromText text).find?
        (fun m => isValidUCIFormat m && isLegalMove eng fen m) with
    | some m =>
      rw [hf] at h
      cases h
      have hp := List.find?_some hf
      rw [Bool.and_eq_true] at hp
      exact hp.2
    | none =>
      rw [hf] at h
      obtain ⟨a, ha⟩ := findSome?_exists h
      cases hm : eng.move fen a with
      | some r =>
        rw [hm] at ha
        have hmv : mv = r.fromSq ++ r.toSq ++ r.promotion := by
          cases ha; rfl
        subst hmv
        exact hengine fen a r hm
      | none => rw [hm] at ha; cases ha

/-- C8 witness: the idempotence theorem applied to the toy engine on the
response text e2e4. -/
theorem findBestValidMove_returns_legal_move_witness :
    findBestValidMove toyEngine "F" "e2e4" = some "e2e4" ∧
    isLegalMove toyEngine "F" "e2e4" = true :=
  ⟨by decide,
   findBestValidMove_returns_legal_move toyEngine toyEngine_closed
     "F" "e2e4" "e2e4" (by decide)⟩

/-- C9 counterexample: from two models with distinct ids a and b, a single
updateModel call whose updates carry id b rewrites model a onto id b and
leaves the provider with a duplicated model id — refuting the claim that
every addModel/updateModel/deleteModel sequence preserves pairwise-distinct
ids. -/
theorem updateModel_can_duplicate_ids :
    (modelIds exModels).Nodup ∧
    ¬ (modelIds (applyOps exModels [exIdClashOp])).Nodup := by
  decide

/-- Helper: every id after addModel was already present or is the added
id. -/
theorem mem_modelIds_addModel {y : String} :
    ∀ (models : List AIChessModel) (m : AIChessModel),
      y ∈ modelIds (addModel models m) → y ∈ modelIds models ∨ y = m.id := by
  intro models
  induction models with
  | nil =>
    intro m h
    simp [addModel, modelIds, newCustomModel] at h
    exact Or.inr h
  | cons x xs ih =>
    intro m h
    by_cases hid : (x.id == m.id) = true
    · rw [addModel, if_pos hid] at h
      simp only [modelIds, List.map_cons, List.mem_cons, mergeAdd] at h
      rcases h with h | h
      · exact Or.inr h
      · exact Or.inl (List.mem_cons_of_mem _ h)
    · rw [addModel, if_neg hid] at h
      simp only [modelIds, List.map_cons, List.mem_cons] at h
      rcases h with h | h
      · exact Or.inl (by simp [modelIds, h])
      · rcases ih m h with h2 | h2
        · exact Or.inl (by simp [modelIds] at h2 ⊢; exact Or.inr h2)
        · exact Or.inr h2

/-- Helper: addModel preserves distinct ids. -/
theorem addModel_nodup (models : List AIChessModel) (m : AIChessModel)
    (h : (modelIds models).Nodup) : (modelIds (addModel models m)).Nodup := by
  induction models with
  | nil => simp [addModel, modelIds, newCustomModel]
  | cons x xs ih =>
    simp only [modelIds, List.map_cons, List.nodup_cons] at h
    by_cases hid : (x.id == m.id) = true
    · rw [addModel, if_pos hid]
      simp only [modelIds, List.map_cons, List.nodup_cons, mergeAdd]
      have : x.id = m.id := by simpa using hid
      exact ⟨this ▸ h.1, h.2⟩
    · rw [addModel, if_neg hid]
      simp only [modelIds, List.map_cons, List.nodup_cons]
      refine ⟨?_, ih h.2⟩
      intro hmem
      rcases mem_modelIds_addModel xs m hmem with h2 | h2
      · exact h.1 h2
      · exact hid (by simp [h2])

/-- Helper: an updateModel whose updates keep the target id leaves the id
list unchanged. -/
theorem updateModel_ids (models : List AIChessModel) (targetId : String)
    (updates : ModelPatch) (hkeep : updates.id = none ∨ updates.id = some targetId) :
    modelIds (updateModel models targetId updates) = modelIds models := by
  induction models with
  | nil => rfl
  | cons x xs ih =>
    by_cases hid : (x.id == targetId) = true
    · rw [updateModel, if_pos hid]
      simp only [modelIds, List.map_cons, applyPatch]
      rcases hkeep with hk | hk
      · rw [hk]; rfl
      · rw [hk]
        have : x.id = targetId := by simpa using hid
        simp [this]
    · rw [updateModel, if_neg hid]
      simp only [modelIds, List.map_cons]
      rw [show List.map (fun m => m.id) (updateModel xs targetId updates) =
            modelIds (updateModel xs targetId updates) from rfl, ih]
      rfl

/-- Helper: deleteModel removes at most one entry, giving a sublist. -/
theorem deleteModel_sublist (models : List AIChessModel) (targetId : String) :
    List.Sublist (deleteModel models targetId) models := by
  induction models with
  | nil => simp [deleteModel]
  | cons x xs ih =>
    by_cases hid : (x.id == targetId) = true
    · rw [deleteModel, if_pos hid]
      by_cases hc : (x.custom == some true) = true
      · rw [if_pos hc]; exact List.Sublist.cons x (List.Sublist.refl xs)
      · rw [if_neg hc]
    · rw [deleteModel, if_neg hid]
      exact List.Sublist.cons₂ x ih

/-- C9 amended: within one provider, every sequence of addModel,
updateModel and deleteModel operations preserves pairwise-distinct model
ids, provided no updateModel carries an id change (its updates leave the id
absent or restate the target id); addModel on an existing id updates that
entry in place rather than appending a duplicate. -/
theorem model_crud_preserves_distinct_ids
    (models : List AIChessModel) (ops : List ModelOp)
    (hops : ∀ op ∈ ops, opKeepsId op) (h : (modelIds models).Nodup) :
    (modelIds (applyOps models ops)).Nodup := by
  induction ops generalizing models with
  | nil => exact h
  | cons op rest ih =>
    have hop : opKeepsId op := hops op (List.mem_cons_self op rest)
    have hrest : ∀ o ∈ rest, opKeepsId o := fun o ho => hops o (List.mem_cons_of_mem _ ho)
    have hstep : applyOps models (op :: rest) = applyOps (applyOp models op) rest := rfl
    rw [hstep]
    apply ih (applyOp models op) hrest
    cases op with
    | add m => exact addModel_nodup models m h
    | update targetId updates =>
      have hk : updates.id = none ∨ updates.id = some targetId := hop
      rw [show applyOp models (.update targetId updates) =
            updateModel models targetId updates from rfl,
          updateModel_ids models targetId updates hk]
      exact h
    | delete targetId =>
      have hsub := List.Sublist.map (fun (m : AIChessModel) => m.id)
        (deleteModel_sublist models targetId)
      exact h.sublist hsub

/-- C9 witness: the invariant applied to a concrete add, id-preserving
update and delete sequence. -/
theorem model_crud_preserves_distinct_ids_witness :
    (modelIds exModels).Nodup ∧ (modelIds (applyOps exModels exGoodOps)).Nodup :=
  ⟨by decide,
   model_crud_preserves_distinct_ids exModels exGoodOps
     (by
       intro op hop
       simp only [exGoodOps, List.mem_cons, List.not_mem_nil, or_false] at hop
       rcases hop with rfl | rfl | rfl
       · trivial
       · exact Or.inl rfl
       · trivial)
     (by decide)⟩

/-- C2 counterexample: after a first disabling episode (failures at 0, 1,
2) is cut short by a success at 3, a second disabling episode (failures at
4, 5, 6) disables the provider at its threshold, but the stale re-enable
timer of the first episode fires at 600002 and re-enables the provider —
earlier than 6 + disableDuration = 600006 — although no recordSuccess
intervened after the disabling failure.  This refutes the claim as stated
for histories with a pending timer from an earlier episode. -/
theorem provider_reenabled_early_by_stale_timer :
    availableAt exC2Events "p" 6 = false ∧
    availableAt exC2Events "p" 600002 = true ∧
    600002 < 6 + DISABLE_DURATION_MS := by
  decide

/-- C2 amended: starting from a fresh manager (no pending re-enable
timers), after recordFailure is called three times with each failure within
failureWindow of the previous one, isProviderAvailable is false immediately
at the threshold, stays false at every instant before disableDuration has
elapsed since the disabling failure unless recordSuccess re-enables it
earlier, and is true again once disableDuration has elapsed. -/
theorem provider_disabled_at_threshold_for_duration
    (p : String) (t1 t2 t3 t : Nat)
    (h12 : t1 ≤ t2) (h23 : t2 ≤ t3)
    (hw12 : t2 - t1 ≤ FAILURE_WINDOW_MS) (hw23 : t3 - t2 ≤ FAILURE_WINDOW_MS) :
    availableAt [.fail t1 p, .fail t2 p, .fail t3 p] p t3 = false ∧
    (t3 ≤ t → t < t3 + DISABLE_DURATION_MS →
      availableAt [.fail t1 p, .fail t2 p, .fail t3 p] p t = false) ∧
    (t3 + DISABLE_DURATION_MS ≤ t →
      availableAt [.fail t1 p, .fail t2 p, .fail t3 p] p t = true) ∧
    (t3 ≤ t → t < t3 + DISABLE_DURATION_MS →
      availableAt [.fail t1 p, .fail t2 p, .fail t3 p, .success t p] p t = true) := by
  have hc2 : ¬ (t2 - t1 > FAILURE_WINDOW_MS) := by omega
  have hc3 : ¬ (t3 - t2 > FAILURE_WINDOW_MS) := by omega
  have s1 : stepEvent initFM (.fail t1 p) = ⟨[(p, 1)], [(p, t1)], [], []⟩ := by
    simp [stepEvent, eventTime, fireDue, initFM, recordFailure, mapGetNat, mapSet,
      List.lookup, MAX_FAILURES, FAILURE_WINDOW_MS]
  have s2 : stepEvent ⟨[(p, 1)], [(p, t1)], [], []⟩ (.fail t2 p) =
      ⟨[(p, 2), (p, 1)], [(p, t2), (p, t1)], [], []⟩ := by
    simp [stepEvent, eventTime, fireDue, recordFailure, mapGetNat, mapSet,
      List.lookup, MAX_FAILURES, hc2]
  have s3 : stepEvent ⟨[(p, 2), (p, 1)], [(p, t2), (p, t1)], [], []⟩ (.fail t3 p) =
      ⟨[(p, 3), (p, 2), (p, 1)], [(p, t3), (p, t2), (p, t1)], [(p, true)],
        [(p, t3 + DISABLE_DURATION_MS)]⟩ := by
    simp [stepEvent, eventTime, fireDue, recordFailure, mapGetNat, mapSet,
      List.lookup, MAX_FAILURES, hc3]
  refine ⟨?_, ?_, ?_, ?_⟩
  · have hfil : List.filter (fun e => eventTime e ≤ t3)
        [FMEvent.fail t1 p, .fail t2 p, .fail t3 p] =
        [FMEvent.fail t1 p, .fail t2 p, .fail t3 p] := by
      have hu1 : t1 ≤ t3 := le_trans h12 h23
      simp [List.filter, eventTime, hu1, h23]
    have hnd : ¬ (t3 + DISABLE_DURATION_MS ≤ t3) := by
      simp [DISABLE_DURATION_MS]
    simp [availableAt, stateAt, hfil, runEvents, s1, s2, s3, fireDue, hnd,
      isProviderAvailable, mapGetBool, List.lookup]
  · intro ht3 htlt
    have hu1 : t1 ≤ t := by omega
    have hu2 : t2 ≤ t := by omega
    have hfil : List.filter (fun e => eventTime e ≤ t)
        [FMEvent.fail t1 p, .fail t2 p, .fail t3 p] =
        [FMEvent.fail t1 p, .fail t2 p, .fail t3 p] := by
      simp [List.filter, eventTime, hu1, hu2, ht3]
    have hnd : ¬ (t3 + DISABLE_DURATION_MS ≤ t) := by omega
    simp [availableAt, stateAt, hfil, runEvents, s1, s2, s3, fireDue, hnd,
      isProviderAvailable, mapGetBool, List.lookup]
  · intro htge
    have ht3 : t3 ≤ t := by
      have := DISABLE_DURATION_MS
      omega
    have hu1 : t1 ≤ t := by omega
    have hu2 : t2 ≤ t := by omega
    have hfil : List.filter (fun e => eventTime e ≤ t)
        [FMEvent.fail t1 p, .fail t2 p, .fail t3 p] =
        [FMEvent.fail t1 p, .fail t2 p, .fail t3 p] := by
      simp [List.filter, eventTime, hu1, hu2, ht3]
    simp [availableAt, stateAt, hfil, runEvents, s1, s2, s3, fireDue, htge,
      isProviderAvailable, mapGetBool, mapSet, List.lookup]
  · intro ht3 htlt
    have hu1 : t1 ≤ t := by omega
    have hu2 : t2 ≤ t := by omega
    have hfil : List.filter (fun e => eventTime e ≤ t)
        [FMEvent.fail t1 p, .fail t2 p, .fail t3 p, .success t p] =
        [FMEvent.fail t1 p, .fail t2 p, .fail t3 p, .success t p] := by
      simp [List.filter, eventTime, hu1, hu2, ht3]
    have hnd : ¬ (t3 + DISABLE_DURATION_MS ≤ t) := by omega
    have s4 : stepEvent ⟨[(p, 3), (p, 2), (p, 1)], [(p, t3), (p, t2), (p, t1)],
        [(p, true)], [(p, t3 + DISABLE_DURATION_MS)]⟩ (.success t p) =
        ⟨[(p, 0), (p, 3), (p, 2), (p, 1)], [(p, t3), (p, t2), (p, t1)],
          [(p, false), (p, true)], [(p, t3 + DISABLE_DURATION_MS)]⟩ := by
      simp [stepEvent, eventTime, fireDue, hnd, recordSuccess, mapSet]
      omega
    simp [availableAt, stateAt, hfil, runEvents, s1, s2, s3, s4, fireDue, hnd,
      isProviderAvailable, mapGetBool, List.lookup]

/-- C2 witness: the amended theorem applied to failures at 0, 1 and 2,
checked just before and at the re-enable deadline, and with an early
success. -/
theorem provider_disabled_at_threshold_for_duration_witness :
    availableAt [FMEvent.fail 0 "q", .fail 1 "q", .fail 2 "q"] "q" 2 = false ∧
    availableAt [FMEvent.fail 0 "q", .fail 1 "q", .fail 2 "q"] "q" 600001 = false ∧
    availableAt [FMEvent.fail 0 "q", .fail 1 "q", .fail 2 "q"] "q" 600002 = true ∧
    availableAt [FMEvent.fail 0 "q", .fail 1 "q", .fail 2 "q", .success 600001 "q"]
      "q" 600001 = true :=
  ⟨(provider_disabled_at_threshold_for_duration "q" 0 1 2 600001
      (by decide) (by decide) (by decide) (by decide)).1,
   (provider_disabled_at_threshold_for_duration "q" 0 1 2 600001
      (by decide) (by decide) (by decide) (by decide)).2.1 (by decide) (by decide),
   (provider_disabled_at_threshold_for_duration "q" 0 1 2 600002
      (by decide) (by decide) (by decide) (by decide)).2.2.1 (by decide),
   (provider_disabled_at_threshold_for_duration "q" 0 1 2 600001
      (by decide) (by decide) (by decide) (by decide)).2.2.2 (by decide) (by decide)⟩

/-- C3: getBestAvailableProvider returns the preferred provider with
isFallback false whenever it is available and registered; otherwise the
stockfish provider when registered and available; every returned provider
is available (so a disabled provider is never the primary choice) and a
fallback result is distinct from the preferred id; and a none result means
every registered provider other than the preferred one is unavailable. -/
theorem getBestAvailableProvider_policy
    (s : FMState) (registry : List String) (pref : String) :
    (isProviderAvailable s pref = true → registry.contains pref = true →
      getBestAvailableProvider s registry pref = some (pref, false)) ∧
    (¬ (isProviderAvailable s pref = true ∧ registry.contains pref = true) →
      registry.contains "stockfish" = true →
      isProviderAvailable s "stockfish" = true →
      getBestAvailableProvider s registry pref = some ("stockfish", true)) ∧
    (∀ pid isFb, getBestAvailableProvider s registry pref = some (pid, isFb) →
      isProviderAvailable s pid = true ∧ registry.contains pid = true ∧
      (isFb = false → pid = pref) ∧ (isFb = true → pid ≠ pref)) ∧
    (getBestAvailableProvider s registry pref = none →
      ∀ q, registry.contains q = true → q ≠ pref →
        isProviderAvailable s q = false) := by
  refine ⟨?_, ?_, ?_, ?_⟩
  · intro hA hR
    unfold getBestAvailableProvider
    rw [if_pos (by rw [Bool.and_eq_true]; exact ⟨hA, hR⟩)]
  · intro hN hS hA
    unfold getBestAvailableProvider
    rw [if_neg (by rw [Bool.and_eq_true]; exact hN),
      if_pos (by rw [Bool.and_eq_true]; exact ⟨hS, hA⟩)]
  · intro pid isFb h
    unfold getBestAvailableProvider at h
    by_cases h1 : (isProviderAvailable s pref && registry.contains pref) = true
    · rw [if_pos h1] at h
      rw [Bool.and_eq_true] at h1
      simp only [Option.some.injEq, Prod.mk.injEq] at h
      obtain ⟨hp, hf⟩ := h
      subst hp; subst hf
      exact ⟨h1.1, h1.2, fun _ => rfl, fun hc => by simp at hc⟩
    · rw [if_neg h1] at h
      by_cases h2 : (registry.contains "stockfish" && isProviderAvailable s "stockfish") = true
      · rw [if_pos h2] at h
        rw [Bool.and_eq_true] at h2
        simp only [Option.some.injEq, Prod.mk.injEq] at h
        obtain ⟨hp, hf⟩ := h
        subst hp; subst hf
        refine ⟨h2.2, h2.1, fun hc => by simp at hc, fun _ hpe => ?_⟩
        exact h1 (by rw [Bool.and_eq_true, ← hpe]; exact ⟨h2.2, h2.1⟩)
      · rw [if_neg h2] at h
        cases hf : registry.find? (fun p => p != pref && isProviderAvailable s p) with
        | none => rw [hf] at h; cases h
        | some q =>
          rw [hf] at h
          simp only [Option.some.injEq, Prod.mk.injEq] at h
          obtain ⟨hp, hfb⟩ := h
          subst hp; subst hfb
          have hq := List.find?_some hf
          rw [Bool.and_eq_true] at hq
          refine ⟨hq.2, List.elem_eq_true_of_mem (List.mem_of_find?_eq_some hf),
            fun hc => by simp at hc, fun _ => bne_iff_ne.mp hq.1⟩
  · intro h q hqc hqp
    unfold getBestAvailableProvider at h
    by_cases h1 : (isProviderAvailable s pref && registry.contains pref) = true
    · rw [if_pos h1] at h; cases h
    · rw [if_neg h1] at h
      by_cases h2 : (registry.contains "stockfish" && isProviderAvailable s "stockfish") = true
      · rw [if_pos h2] at h; cases h
      · rw [if_neg h2] at h
        cases hf : registry.find? (fun p => p != pref && isProviderAvailable s p) with
        | some v => rw [hf] at h; cases h
        | none =>
          have hall := List.find?_eq_none.mp hf q (List.mem_of_elem_eq_true hqc)
          rw [Bool.and_eq_true] at hall
          cases hav : isProviderAvailable s q
          · rfl
          · exact absurd ⟨by simp [hqp], hav⟩ hall

/-- C3 witness: the policy applied to a fresh manager with gemini preferred
(primary hit), to an unregistered preferred id (stockfish fallback), and to
a registry whose only other provider is disabled (none). -/
theorem getBestAvailableProvider_policy_witness :
    getBestAvailableProvider initFM ["gemini", "stockfish"] "gemini" =
      some ("gemini", false) ∧
    getBestAvailableProvider initFM ["gemini", "stockfish"] "other" =
      some ("stockfish", true) ∧
    isProviderAvailable initFM "gemini" = true ∧
    ("stockfish" : String) ≠ "other" ∧
    isProviderAvailable ⟨[], [], [("b", true)], []⟩ "b" = false :=
  ⟨(getBestAvailableProvider_policy initFM ["gemini", "stockfish"] "gemini").1
      (by decide) (by decide),
   (getBestAvailableProvider_policy initFM ["gemini", "stockfish"] "other").2.1
      (by decide) (by decide) (by decide),
   ((getBestAvailableProvider_policy initFM ["gemini", "stockfish"] "gemini").2.2.1
      "gemini" false (by decide)).1,
   ((getBestAvailableProvider_policy initFM ["gemini", "stockfish"] "other").2.2.1
      "stockfish" true (by decide)).2.2.2 (by decide),
   ((getBestAvailableProvider_policy ⟨[], [], [("b", true)], []⟩ ["b"] "a").2.2.2
      (by decide) "b" (by decide) (by decide))⟩

/-- C1 counterexample: from a fresh manager with gemini and stockfish
registered, a first gemini failure (errA) leads executeWithFallback to
re-select gemini itself — still available after a single failure — so the
second attempt is NOT an alternative provider, and when it also throws
(errB) the error that propagates is the second error, not the original
errA.  This refutes both the one-alternative and the
original-error-propagation parts of the claim. -/
theorem executeWithFallback_retries_same_provider :
    (executeWithFallback initFM ["gemini", "stockfish"] exBehBothFail 1000
        "gemini" "m").attempts = [("gemini", "m"), ("gemini", "m")] ∧
    outcomeError (executeWithFallback initFM ["gemini", "stockfish"] exBehBothFail 1000
        "gemini" "m").outcome = some "errB" ∧
    exBehBothFail 0 = some "errA" ∧
    ("errB" : String) ≠ "errA" := by
  refine ⟨by decide, by decide, by decide, by decide⟩

/-- C1 amended: executeWithFallback makes at most two getBestMove attempts;
after a first failure it records the failure and makes exactly one more
attempt with the provider selected for the failed id, which is the failed
provider itself whenever that provider is still enabled; if the first
selection was already a fallback the original error propagates after one
attempt, if no provider can be re-selected the original error propagates,
and any propagated error is the no-providers error, the first attempt
error, or the second attempt error (a second failure propagates the second
error). -/
theorem executeWithFallback_at_most_one_retry
    (s : FMState) (registry : List String) (beh : Nat → Option String)
    (now : Nat) (pref modelId : String) :
    (executeWithFallback s registry beh now pref modelId).attempts.length ≤ 2 ∧
    (∀ pid e, getBestAvailableProvider s registry pref = some (pid, true) →
      beh 0 = some e →
      (executeWithFallback s registry beh now pref modelId).attempts.length = 1 ∧
      outcomeError (executeWithFallback s registry beh now pref modelId).outcome
        = some e) ∧
    (∀ pid e, getBestAvailableProvider s registry pref = some (pid, false) →
      beh 0 = some e →
      getBestAvailableProvider (recordFailure s pid now) registry pid = none →
      outcomeError (executeWithFallback s registry beh now pref modelId).outcome
        = some e) ∧
    (∀ e, outcomeError (executeWithFallback s registry beh now pref modelId).outcome
        = some e →
      e = "No available providers for AI move generation" ∨
      beh 0 = some e ∨ beh 1 = some e) := by
  unfold executeWithFallback
  cases hsel : getBestAvailableProvider s registry pref with
  | none =>
    refine ⟨by simp, ?_, ?_, ?_⟩
    · intro pid e h _; cases h
    · intro pid e h _ _; cases h
    · intro e h
      simp only [outcomeError] at h
      cases h
      exact Or.inl rfl
  | some sel =>
    obtain ⟨pid0, isFb0⟩ := sel
    cases hb0 : beh 0 with
    | none =>
      refine ⟨by simp, ?_, ?_, ?_⟩
      · intro pid e _ he; cases he
      · intro pid e _ he _; cases he
      · intro e h; simp [outcomeError] at h
    | some err =>
      cases isFb0 with
      | true =>
        refine ⟨by simp, ?_, ?_, ?_⟩
        · intro pid e h he
          simp only [Option.some.injEq] at he
          subst he
          exact ⟨by simp, by simp [outcomeError]⟩
        · intro pid e h _ _
          simp only [Option.some.injEq, Prod.mk.injEq] at h
          exact absurd h.2 (by simp)
        · intro e h
          simp [outcomeError] at h
          subst h
          exact Or.inr (Or.inl rfl)
      | false =>
        cases hsel2 : getBestAvailableProvider (recordFailure s pid0 now) registry pid0 with
        | none =>
          refine ⟨by simp [hsel2], ?_, ?_, ?_⟩
          · intro pid e h _
            simp only [Option.some.injEq, Prod.mk.injEq] at h
            exact absurd h.2 (by simp)
          · intro pid e h he h2
            simp only [Option.some.injEq] at he
            subst he
            simp [outcomeError, hsel2]
          · intro e h
            simp [outcomeError, hsel2] at h
            subst h
            exact Or.inr (Or.inl rfl)
        | some fb =>
          obtain ⟨fbPid, fbFb⟩ := fb
          cases hb1 : beh 1 with
          | none =>
            refine ⟨by simp [hsel2, hb1], ?_, ?_, ?_⟩
            · intro pid e h _
              simp only [Option.some.injEq, Prod.mk.injEq] at h
              exact absurd h.2 (by simp)
            · intro pid e h he h2
              simp only [Option.some.injEq, Prod.mk.injEq] at h
              rw [← h.1] at h2
              rw [hsel2] at h2
              cases h2
            · intro e h
              simp [outcomeError, hsel2, hb1] at h
          | some err2 =>
            refine ⟨by simp [hsel2, hb1], ?_, ?_, ?_⟩
            · intro pid e h _
              simp only [Option.some.injEq, Prod.mk.injEq] at h
              exact absurd h.2 (by simp)
            · intro pid e h he h2
              simp only [Option.some.injEq, Prod.mk.injEq] at h
              rw [← h.1] at h2
              rw [hsel2] at h2
              cases h2
            · intro e h
              simp [outcomeError, hsel2, hb1] at h
              subst h
              exact Or.inr (Or.inr rfl)

/-- C1 witness: the amended theorem applied to a fallback selection that
fails once (one attempt, original error propagates), and to a primary
selection whose failure disables it with no alternative registered. -/
theorem executeWithFallback_at_most_one_retry_witness :
    (executeWithFallback initFM ["stockfish"] exBehFirstFails 5 "gone" "m").attempts.length
      ≤ 2 ∧
    getBestAvailableProvider initFM ["stockfish"] "gone" = some ("stockfish", true) ∧
    exBehFirstFails 0 = some "errA" ∧
    (executeWithFallback initFM ["stockfish"] exBehFirstFails 5 "gone" "m").attempts.length
      = 1 ∧
    outcomeError (executeWithFallback initFM ["stockfish"] exBehFirstFails 5 "gone"
      "m").outcome = some "errA" ∧
    getBestAvailableProvider exTwoGeminiFailures ["gemini"] "gemini" =
      some ("gemini", false) ∧
    getBestAvailableProvider (recordFailure exTwoGeminiFailures "gemini" 1000)
      ["gemini"] "gemini" = none ∧
    outcomeError (executeWithFallback exTwoGeminiFailures ["gemini"] exBehFirstFails 1000
      "gemini" "m").outcome = some "errA" ∧
    (("errA" : String) = "No available providers for AI move generation" ∨
      exBehFirstFails 0 = some "errA" ∨ exBehFirstFails 1 = some "errA") :=
  ⟨(executeWithFallback_at_most_one_retry initFM ["stockfish"] exBehFirstFails 5
        "gone" "m").1,
     by decide, by decide,
     ((executeWithFallback_at_most_one_retry initFM ["stockfish"] exBehFirstFails 5
        "gone" "m").2.1 "stockfish" "errA" (by decide) (by decide)).1,
     ((executeWithFallback_at_most_one_retry initFM ["stockfish"] exBehFirstFails 5
        "gone" "m").2.1 "stockfish" "errA" (by decide) (by decide)).2,
     by decide, by decide,
     (executeWithFallback_at_most_one_retry exTwoGeminiFailures ["gemini"]
        exBehFirstFails 1000 "gemini" "m").2.2.1 "gemini" "errA" (by decide) (by decide)
        (by decide),
     (executeWithFallback_at_most_one_retry exTwoGeminiFailures ["gemini"]
        exBehFirstFails 1000 "gemini" "m").2.2.2 "errA"
        ((executeWithFallback_at_most_one_retry exTwoGeminiFailures ["gemini"]
          exBehFirstFails 1000 "gemini" "m").2.2.1 "gemini" "errA" (by decide) (by decide)
          (by decide))⟩

/-- C10: with a preferred provider id that is not registered and not
marked disabled, executeWithFallback does not fail with a
provider-not-found error: selection falls through to the stockfish
provider with isFallback true whenever stockfish is registered and not
disabled, the single attempt goes to stockfish (with the model id mapped
to a stockfish level), succeeding when stockfish succeeds, and a stockfish
failure propagates that failure rather than the no-providers error. -/
theorem executeWithFallback_unregistered_preferred_uses_stockfish
    (s : FMState) (registry : List String) (beh : Nat → Option String)
    (now : Nat) (pref modelId : String)
    (hunreg : registry.contains pref = false)
    (henabled : isProviderAvailable s pref = true)
    (hsfreg : registry.contains "stockfish" = true)
    (hsfavail : isProviderAvailable s "stockfish" = true) :
    getBestAvailableProvider s registry pref = some ("stockfish", true) ∧
    (executeWithFallback s registry beh now pref modelId).attempts =
      [("stockfish", mapToStockfishLevel modelId)] ∧
    (beh 0 = none →
      (executeWithFallback s registry beh now pref modelId).outcome = .ok ()) ∧
    (∀ e, beh 0 = some e →
      outcomeError (executeWithFallback s registry beh now pref modelId).outcome
        = some e) := by
  have hsel : getBestAvailableProvider s registry pref = some ("stockfish", true) := by
    unfold getBestAvailableProvider
    rw [if_neg (by
        rw [Bool.and_eq_true]
        rintro ⟨-, hc⟩
        rw [hunreg] at hc
        cases hc),
      if_pos (by rw [Bool.and_eq_true]; exact ⟨hsfreg, hsfavail⟩)]
  refine ⟨hsel, ?_, ?_, ?_⟩
  · cases hb : beh 0 with
    | none => simp [executeWithFallback, hsel, hb]
    | some e => simp [executeWithFallback, hsel, hb]
  · intro hb
    simp [executeWithFallback, hsel, hb]
  · intro e hb
    simp [executeWithFallback, hsel, hb, outcomeError]

/-- C10 witness: a fresh manager, gemini and stockfish registered, the
unregistered preferred id openai, and a succeeding attempt oracle. -/
theorem executeWithFallback_unregistered_preferred_uses_stockfish_witness :
    List.contains ["gemini", "stockfish"] "openai" = false ∧
    isProviderAvailable initFM "openai" = true ∧
    List.contains ["gemini", "stockfish"] "stockfish" = true ∧
    isProviderAvailable initFM "stockfish" = true ∧
    getBestAvailableProvider initFM ["gemini", "stockfish"] "openai" =
      some ("stockfish", true) ∧
    (executeWithFallback initFM ["gemini", "stockfish"] exBehSuccess 5 "openai"
      "gemini-1.5-flash").attempts =
      [("stockfish", mapToStockfishLevel "gemini-1.5-flash")] ∧
    (executeWithFallback initFM ["gemini", "stockfish"] exBehSuccess 5 "openai"
      "gemini-1.5-flash").outcome = .ok () :=
  ⟨by decide, by decide, by decide, by decide,
   (executeWithFallback_unregistered_preferred_uses_stockfish initFM
      ["gemini", "stockfish"] exBehSuccess 5 "openai" "gemini-1.5-flash"
      (by decide) (by decide) (by decide) (by decide)).1,
   (executeWithFallback_unregistered_preferred_uses_stockfish initFM
      ["gemini", "stockfish"] exBehSuccess 5 "openai" "gemini-1.5-flash"
      (by decide) (by decide) (by decide) (by decide)).2.1,
   (executeWithFallback_unregistered_preferred_uses_stockfish initFM
      ["gemini", "stockfish"] exBehSuccess 5 "openai" "gemini-1.5-flash"
      (by decide) (by decide) (by decide) (by decide)).2.2.1 rfl⟩

end AIBoard
